import Mathlib

/-!
Verification development for the `aiosqlite` SQLAlchemy engine layer
(`aiosqlite/sa/engine.py`) and the connection-pool contract it consumes.

The facade (`Engine`, `_ConnectionContextManager`, `get_dialect`,
`create_engine`) is embedded directly from the source.  The pool, the
execution bridge and the acquire context manager live in modules that are
documented only by the specification; their embeddings are marked
"Modelled from the spec" and follow the specification's words.
-/

namespace AiosqliteSA

/-- Error kinds raised by the layers under study.  `invalidRequestError`
embeds `aiosqlite.sa.exc.InvalidRequestError`, the realisation of the
specification's `InvalidStateError` taxonomy kind; `runtimeError` embeds
Python's `RuntimeError`; `attributeError` embeds the `AttributeError`
raised when a method is looked up on `None`; `closedError` and
`timeoutError` embed the pool-level coordination failures. -/
inductive SAError where
  | invalidRequestError (msg : String)
  | runtimeError (msg : String)
  | attributeError (msg : String)
  | closedError
  | timeoutError
  deriving DecidableEq, Repr

/-- A small model of the Python values that `json.dumps` accepts in this
development: `None`, booleans, integers and strings. -/
inductive PyValue where
  | none
  | bool (b : Bool)
  | int (n : Int)
  | str (s : String)
  deriving DecidableEq, Repr

/-- JSON string escaping: a double quote or a backslash is preceded by a
backslash, every other character is copied. -/
def escChars : List Char → List Char
  | [] => []
  | c :: cs =>
      if c = '"' || c = '\\' then '\\' :: c :: escChars cs
      else c :: escChars cs

/-- Model of the standard library's `json.dumps` on the modelled values:
`None` becomes `null`, booleans lowercase, integers their decimal text,
strings are escaped and wrapped in double quotes. -/
def jsonDumps : PyValue → String
  | PyValue.none => "null"
  | PyValue.bool true => "true"
  | PyValue.bool false => "false"
  | PyValue.int n => toString n
  | PyValue.str s => "\"" ++ String.mk (escChars s.data) ++ "\""

/-- The dialect object: identifiers plus the two JSON hooks handed to
`SQLiteDialect_pysqlite`.  The serializer consumes a Python value and, in
the default configuration, produces the Python string holding its JSON
text; the deserializer consumes whatever the database returns. -/
structure Dialect where
  name : String
  driver : String
  json_serializer : PyValue → PyValue
  json_deserializer : PyValue → PyValue

/-- Embeds `SQLiteDialect_pysqlite(json_serializer=..., json_deserializer=...)`:
the sqlite pysqlite dialect has `name = "sqlite"` and
`driver = "pysqlite"`. -/
def SQLiteDialect_pysqlite (ser deser : PyValue → PyValue) : Dialect :=
  ⟨"sqlite", "pysqlite", ser, deser⟩

/-- The default `json_serializer=json.dumps` argument of `get_dialect`:
serialising a value yields the Python string of its JSON text. -/
def defaultSerializer : PyValue → PyValue :=
  fun v => PyValue.str (jsonDumps v)

/-- The default `json_deserializer=lambda x: x` argument of
`get_dialect`: the identity function. -/
def defaultDeserializer : PyValue → PyValue :=
  fun x => x

/-- Embeds `get_dialect(json_serializer, json_deserializer)` constructs the
pysqlite dialect from the two hooks. -/
def get_dialect (ser deser : PyValue → PyValue) : Dialect :=
  SQLiteDialect_pysqlite ser deser

/-- The module-level `_dialect = get_dialect()`: `get_dialect` called with
both defaults.  `create_engine` uses it whenever no `dialect` argument is
given (`dialect=_dialect` in its signature). -/
def _dialect : Dialect :=
  get_dialect defaultSerializer defaultDeserializer

/-- Serialize-then-deserialize under a dialect. -/
def dialectRoundTrip (d : Dialect) (v : PyValue) : PyValue :=
  d.json_deserializer (d.json_serializer v)

/-- Modelled from the spec: one Bridge (the non-blocking wrapper over a
blocking sqlite handle, `aiosqlite.core.Connection`, not under `src/`),
as the pool sees it: an identity, a creation timestamp (for the recycle
policy), the current in-transaction flag, and whether it is closed. -/
structure Bridge where
  id : Nat
  birth : Nat
  in_transaction : Bool
  closed : Bool
  deriving DecidableEq, Repr

/-- A freshly opened Bridge: new identity, born now, no transaction,
open. -/
def freshBridge (id now : Nat) : Bridge :=
  ⟨id, now, false, false⟩

/-- A Bridge has exceeded the recycle age when recycling is enabled
(`recycle ≥ 0`, `-1` meaning never) and its age is beyond `recycle`. -/
def Bridge.stale (recycle : Int) (now : Nat) (b : Bridge) : Bool :=
  decide (0 ≤ recycle) && decide (recycle < ((now - b.birth : Nat) : Int))

/-- Modelled from the spec: the connection pool (`aiosqlite.pool.Pool`,
not under `src/`).  Attributes follow section 3 of the specification:
`minsize`, `maxsize`, `timeout`, `recycle`, the idle and in-use sets,
and the closed flag.  A logical clock `now` dates Bridge ages and
`nextId` supplies fresh Bridge identities. -/
structure PoolState where
  minsize : Nat
  maxsize : Nat
  timeout : Nat
  recycle : Int
  now : Nat
  idle : List Bridge
  inUse : List Bridge
  closed : Bool
  nextId : Nat
  deriving DecidableEq, Repr

/-- Observation `Pool.size`: idle count plus in-use count. -/
def PoolState.size (p : PoolState) : Nat :=
  p.idle.length + p.inUse.length

/-- Observation `Pool.freesize`: idle count only. -/
def PoolState.freesize (p : PoolState) : Nat :=
  p.idle.length

/-- The `minsize` Bridges pre-opened at pool construction. -/
def initBridges : Nat → Nat → List Bridge
  | 0, _ => []
  | n + 1, startId => freshBridge startId 0 :: initBridges n (startId + 1)

/-- Modelled from the spec: `create_pool` — `minsize ≤ maxsize` is
enforced at construction (`none` otherwise) and the pool starts with
`minsize` Bridges pre-opened in the idle set, open, at time zero. -/
def create_pool (minsize maxsize timeout : Nat) (recycle : Int) :
    Option PoolState :=
  if minsize ≤ maxsize then
    some ⟨minsize, maxsize, timeout, recycle, 0,
          initBridges minsize 0, [], false, minsize⟩
  else
    Option.none

/-- Modelled from the spec: `Pool.acquire` — on a closing/closed pool it
fails with the `ClosedError` kind; if an idle Bridge exists it moves from
the idle set to the in-use set and is returned; else if `size < maxsize`
a fresh Bridge is opened into the in-use set; else the caller waits and,
past `timeout`, fails with the `TimeoutError` kind (waiting leaves the
pool unchanged, so the exhausted case is embedded as the timeout
failure). -/
def PoolState.acquire (p : PoolState) :
    Except SAError (Bridge × PoolState) :=
  if p.closed then .error .closedError
  else
    match p.idle with
    | b :: rest =>
        .ok (b, { p with idle := rest, inUse := b :: p.inUse })
    | [] =>
        if p.size < p.maxsize then
          let b := freshBridge p.nextId p.now
          .ok (b, { p with inUse := b :: p.inUse, nextId := p.nextId + 1 })
        else .error .timeoutError

/-- Modelled from the spec: `Pool.release` — only a Bridge currently
checked out may be returned; a Bridge left mid-transaction is a
programming error reported loudly unless release happens as part of pool
teardown; during teardown the Bridge is closed and discarded; a closed
or over-age Bridge is discarded and, only while the pool is below
`minsize`, a fresh replacement is opened; otherwise the Bridge returns
to the idle set. -/
def PoolState.release (p : PoolState) (b : Bridge) :
    Except SAError PoolState :=
  if b ∈ p.inUse then
    if b.in_transaction && !p.closed then
      .error (.invalidRequestError
        "released a bridge with a not finished transaction")
    else
      let q := { p with inUse := p.inUse.erase b }
      if p.closed then .ok q
      else if b.closed || b.stale p.recycle p.now then
        if q.size < p.minsize then
          .ok { q with idle := freshBridge q.nextId q.now :: q.idle,
                       nextId := q.nextId + 1 }
        else .ok q
      else .ok { q with idle := b :: q.idle }
  else
    .error (.invalidRequestError "released a bridge that is not in use")

/-- One pool step issued by a caller: an acquire attempt, a release
attempt, or the passage of one unit of time. -/
inductive PoolOp where
  | acquireOp
  | releaseOp (b : Bridge)
  | tick
  deriving DecidableEq, Repr

/-- Apply one step to the pool; a failing acquire or release leaves the
pool unchanged (the error goes to the calling task alone). -/
def PoolState.step (p : PoolState) : PoolOp → PoolState
  | .acquireOp =>
      match p.acquire with
      | .ok (_, p') => p'
      | .error _ => p
  | .releaseOp b =>
      match p.release b with
      | .ok p' => p'
      | .error _ => p
  | .tick => { p with now := p.now + 1 }

/-- Run a sequence of pool steps. -/
def PoolState.run (p : PoolState) (ops : List PoolOp) : PoolState :=
  ops.foldl PoolState.step p

/-- Composition: `Pool.acquire` immediately followed by `Pool.release` of the Bridge
just handed out. -/
def acquireRelease (p : PoolState) : Except SAError PoolState :=
  match p.acquire with
  | .ok (b, p') => p'.release b
  | .error e => .error e

/-- The `SAConnection` wrapper as `Engine.release` reads it: its
`connection` property (the raw Bridge handed out by the pool) and its
`in_transaction` property. -/
structure SAConnection where
  connection : Bridge
  in_transaction : Bool
  deriving DecidableEq, Repr

/-- The `Engine` facade from `aiosqlite/sa/engine.py`: a dialect, the
embedded pool and the DSN, exactly the three attributes set by
`Engine.__init__`. -/
structure Engine where
  dialect : Dialect
  pool : PoolState
  dsn : Option String

/-- Property `Engine.name` delegates to the dialect. -/
def Engine.name (e : Engine) : String := e.dialect.name

/-- Property `Engine.driver` delegates to the dialect. -/
def Engine.driver (e : Engine) : String := e.dialect.driver

/-- Property `Engine.timeout` delegates to the pool. -/
def Engine.timeout (e : Engine) : Nat := e.pool.timeout

/-- Property `Engine.minsize` delegates to the pool. -/
def Engine.minsize (e : Engine) : Nat := e.pool.minsize

/-- Property `Engine.maxsize` delegates to the pool. -/
def Engine.maxsize (e : Engine) : Nat := e.pool.maxsize

/-- Property `Engine.size` delegates to the pool. -/
def Engine.size (e : Engine) : Nat := e.pool.size

/-- Property `Engine.freesize` delegates to the pool. -/
def Engine.freesize (e : Engine) : Nat := e.pool.freesize

/-- Property `Engine.closed` delegates to the pool. -/
def Engine.closed (e : Engine) : Bool := e.pool.closed

/-- Embeds `create_engine(dsn, ..., dialect, ...)`: builds the Engine over the
pool created by `aiosqlite.create_pool`; the embedding takes that pool
as an argument. -/
def create_engine (dsn : Option String) (pool : PoolState)
    (dialect : Dialect) : Engine :=
  ⟨dialect, pool, dsn⟩

/-- Embeds `create_engine` when no `dialect` argument is given: the signature
default is `dialect=_dialect`. -/
def create_engine_nodialect (dsn : Option String) (pool : PoolState) :
    Engine :=
  create_engine dsn pool _dialect

/-- The message of the `InvalidRequestError` raised by
`Engine.release`. -/
def releaseErrorMsg : String :=
  "Cannot release a connection with not finished transaction"

/-- The message of the `RuntimeError` raised by `Engine.__enter__`. -/
def enterErrorMsg : String :=
  "\"await\" should be used as context manager expression"

/-- The observable side effects `Engine.release` can issue: scheduling
`pool.release(raw)`, or delegating `commit`/`rollback` to a Bridge. -/
inductive EngineAction where
  | poolRelease (b : Bridge)
  | commit (b : Bridge)
  | rollback (b : Bridge)
  deriving DecidableEq, Repr

/-- Embeds `Engine.release(conn)`: when `conn.in_transaction` it raises
`InvalidRequestError` (the spec's `InvalidStateError` kind) before any
interaction with the pool; otherwise it schedules
`self._pool.release(conn.connection)` as a task and returns that task,
so the synchronous call succeeds.  The returned pool state and the
action trace record the scheduled task's effect; a failure inside the
task does not raise on the caller's synchronous path (the facade never
awaits the task). -/
def Engine.release (e : Engine) (conn : SAConnection) :
    Except SAError Unit × PoolState × List EngineAction :=
  if conn.in_transaction then
    (.error (.invalidRequestError releaseErrorMsg), e.pool, [])
  else
    match e.pool.release conn.connection with
    | .ok p' => (.ok (), p', [.poolRelease conn.connection])
    | .error _ => (.ok (), e.pool, [.poolRelease conn.connection])

/-- Embeds `Engine.__enter__`: raises `RuntimeError` unconditionally — the
Engine itself is never usable as a plain synchronous `with` target. -/
def Engine.enterSync (_e : Engine) : Except SAError SAConnection :=
  .error (.runtimeError enterErrorMsg)

/-- Embeds `Engine._acquire`: awaits `pool.acquire` and wraps the raw Bridge in
a fresh `SAConnection` (no transaction open yet). -/
def Engine.engineAcquire (e : Engine) :
    Except SAError (SAConnection × Engine) :=
  match e.pool.acquire with
  | .ok (b, p') => .ok (⟨b, false⟩, { e with pool := p' })
  | .error err => .error err

/-- Modelled from the spec: the scoped acquisition wrapper returned by
`Engine.acquire` (`_PoolAcquireContextManager` from `aiosqlite/utils.py`,
not under `src/`).  It guards one pending acquisition: `resolved` holds
the value once the acquisition has produced it, `spent` records that the
single underlying coroutine has been consumed, and `started` counts how
many times the underlying acquisition was started. -/
structure AcquireCtx where
  resolved : Option SAConnection
  spent : Bool
  started : Nat
  deriving DecidableEq, Repr

/-- A wrapper freshly created around a pending acquisition. -/
def AcquireCtx.fresh : AcquireCtx :=
  ⟨Option.none, false, 0⟩

/-- Embeds `Engine.acquire()`: wraps the pending `Engine._acquire()` coroutine
in a scoped acquisition wrapper without starting it. -/
def Engine.acquire (_e : Engine) : AcquireCtx :=
  AcquireCtx.fresh

/-- Modelled from the spec: awaiting the wrapper ("resolve").  An
already-acquired value is reused; a consumed-but-unresolved coroutine
cannot be restarted (it fails loudly, starting no new work); otherwise
the single underlying acquisition runs exactly now. -/
def AcquireCtx.resolve (w : AcquireCtx) (e : Engine) :
    Except SAError SAConnection × AcquireCtx × Engine :=
  match w.resolved with
  | some c => (.ok c, w, e)
  | Option.none =>
      if w.spent then
        (.error (.runtimeError "cannot reuse already awaited acquisition"),
         w, e)
      else
        match e.engineAcquire with
        | .ok (c, e') => (.ok c, ⟨some c, true, w.started + 1⟩, e')
        | .error err => (.error err, ⟨Option.none, true, w.started + 1⟩, e)

/-- Modelled from the spec: the wrapper's scoped enter ("scoped-enter"),
delegating to the same single underlying acquisition as resolve. -/
def AcquireCtx.scopedEnter (w : AcquireCtx) (e : Engine) :
    Except SAError SAConnection × AcquireCtx × Engine :=
  w.resolve e

/-- Modelled from the spec: entering the wrapper as a plain synchronous
scoped construct.  Without the asynchronous acquisition step there is no
resolved value and the misuse fails loudly. -/
def AcquireCtx.enterSyncW (w : AcquireCtx) : Except SAError SAConnection :=
  match w.resolved with
  | Option.none =>
      .error (.runtimeError
        "asynchronous acquisition must run before entering")
  | some c => .ok c

/-- The two ways a caller may consume the wrapper. -/
inductive WrapOp where
  | awaitOp
  | enterOp
  deriving DecidableEq, Repr

/-- Apply one consumption of the wrapper, threading the engine. -/
def AcquireCtx.stepW (we : AcquireCtx × Engine) (op : WrapOp) :
    AcquireCtx × Engine :=
  match op with
  | .awaitOp => (we.1.resolve we.2).2
  | .enterOp => (we.1.scopedEnter we.2).2

/-- The `_ConnectionContextManager` wrapper: its `_engine` and `_conn`
slots, each `None` once cleared. -/
structure ConnCtx where
  engine : Option Engine
  conn : Option SAConnection

/-- Embeds `_ConnectionContextManager.__exit__`: calls
`self._engine.release(self._conn)` and, in a `finally`, clears both
slots.  Returns the outcome of the call (on cleared slots the attribute
lookup on `None` raises before any release), the wrapper afterwards, the
number of release attempts made, and the engine actions issued. -/
def ConnCtx.exitStep (w : ConnCtx) :
    Except SAError Unit × ConnCtx × Nat × List EngineAction :=
  match w.engine, w.conn with
  | some e, some c =>
      ((e.release c).1, ⟨Option.none, Option.none⟩, 1, (e.release c).2.2)
  | _, _ =>
      (.error (.attributeError "NoneType object has no attribute release"),
       ⟨Option.none, Option.none⟩, 0, [])

/-- What propagates out of a `with` block: nothing, the body's error, or
an error raised by `__exit__` (carrying the body's error, if any, as its
implicit context, per Python exception chaining). -/
inductive WithOutcome where
  | completed
  | raisedBody (e : SAError)
  | raisedExit (e : SAError) (context : Option SAError)
  deriving DecidableEq, Repr

/-- What propagates given the body's result and the result of the
`__exit__` call: a raising `__exit__` wins, with the body's error (if
any) chained as its context, per Python exception semantics. -/
def withOutcomeOf (body r : Except SAError Unit) : WithOutcome :=
  match body, r with
  | .ok _, .ok _ => .completed
  | .error e1, .ok _ => .raisedBody e1
  | .ok _, .error e2 => .raisedExit e2 Option.none
  | .error e1, .error e2 => .raisedExit e2 (some e1)

/-- Python `with` semantics over the wrapper: after the body finishes
(normally or with an error) `__exit__` runs exactly once; since this
`__exit__` returns a falsy value it never suppresses the body's error;
if `__exit__` itself raises, that error propagates with the body's error
attached as context. -/
def runWithBlock (w : ConnCtx) (body : Except SAError Unit) :
    WithOutcome × ConnCtx × Nat :=
  (withOutcomeOf body (w.exitStep).1, (w.exitStep).2.1, (w.exitStep).2.2.1)

/-- Modelled from the spec: the observable schedule of one Bridge
(`aiosqlite.core.Connection`'s worker and queue, not under `src/`).
Operations are identified by `Nat` tokens; `submitted` lists them in
submission order, `queue` holds the pending ones FIFO, `running` the ones
currently executing against the handle, `completed` the fulfilled result
slots in fulfillment order. -/
structure BridgeExec where
  submitted : List Nat
  queue : List Nat
  running : List Nat
  completed : List Nat
  deriving DecidableEq, Repr

/-- The schedule events: a caller submits a fresh operation; the worker
takes the head of the queue when nothing is executing; the worker
finishes the executing operation and fulfills its result slot. -/
inductive BridgeOp where
  | submitOp (i : Nat)
  | startOp
  | finishOp
  deriving DecidableEq, Repr

/-- One schedule event.  Submission appends to both `submitted` and the
queue (a reused token is ignored: operations are distinct); the worker
starts only when idle and takes the queue head; finishing moves the one
executing operation to `completed`. -/
def BridgeExec.step (s : BridgeExec) : BridgeOp → BridgeExec
  | .submitOp i =>
      if i ∈ s.submitted then s
      else ⟨s.submitted ++ [i], s.queue ++ [i], s.running, s.completed⟩
  | .startOp =>
      match s.running with
      | [] =>
          match s.queue with
          | i :: rest => ⟨s.submitted, rest, [i], s.completed⟩
          | [] => s
      | _ => s
  | .finishOp =>
      match s.running with
      | [i] => ⟨s.submitted, s.queue, [], s.completed ++ [i]⟩
      | _ => s

/-- A Bridge starts with nothing submitted, queued, running or done. -/
def BridgeExec.init : BridgeExec :=
  ⟨[], [], [], []⟩

/-- Run a schedule (any interleaving of submissions from any number of
callers with the worker's own events). -/
def BridgeExec.run (ops : List BridgeOp) : BridgeExec :=
  ops.foldl BridgeExec.step BridgeExec.init

/-- A concrete pool with one Bridge checked out (minsize 1, maxsize 2,
recycling disabled, open). -/
def c1pool : PoolState :=
  ⟨1, 2, 0, -1, 0, [], [freshBridge 0 0], false, 1⟩

/-- A concrete Engine over `c1pool` with the default dialect. -/
def c1engine : Engine :=
  ⟨_dialect, c1pool, Option.none⟩

/-- A concrete connection holding an open transaction. -/
def c1conn : SAConnection :=
  ⟨freshBridge 0 0, true⟩

/-- A concrete pool for the scoped-block scenario. -/
def c2pool : PoolState :=
  ⟨1, 2, 0, -1, 0, [], [freshBridge 0 0], false, 1⟩

/-- A concrete Engine over `c2pool`. -/
def c2engine : Engine :=
  ⟨_dialect, c2pool, Option.none⟩

/-- A concrete connection mid-transaction, so that releasing it inside
`__exit__` raises. -/
def c2conn : SAConnection :=
  ⟨freshBridge 0 0, true⟩

/-- The pool produced by `create_pool` with `minsize = 0`,
`maxsize = 1`: it starts empty. -/
def c4pool : PoolState :=
  ⟨0, 1, 0, -1, 0, [], [], false, 0⟩

/-- The pool produced by `create_pool` with `minsize = 1`,
`maxsize = 2`. -/
def c4wpool : PoolState :=
  ⟨1, 2, 0, -1, 0, [freshBridge 0 0], [], false, 1⟩

/-- The pool produced by `create_pool` with `minsize = 1`,
`maxsize = 2`, recycling disabled. -/
def c5pool : PoolState :=
  ⟨1, 2, 0, -1, 0, [freshBridge 0 0], [], false, 1⟩

/-- A concrete fully idle pool for the net-zero witness. -/
def c5wpool : PoolState :=
  ⟨1, 2, 0, -1, 0, [freshBridge 0 0], [], false, 1⟩

/-- A concrete Engine for the synchronous-enter misuse scenario. -/
def c6engine : Engine :=
  ⟨_dialect, ⟨1, 2, 0, -1, 0, [freshBridge 0 0], [], false, 1⟩, Option.none⟩

/-! ## Theorems -/

/-- Escaping never shortens a character list. -/
theorem escChars_length_le (cs : List Char) :
    cs.length ≤ (escChars cs).length := by
  induction cs with
  | nil => simp [escChars]
  | cons c cs ih =>
      simp only [escChars]
      split
      · simp only [List.length_cons]
        omega
      · simp only [List.length_cons]
        omega

/-- Serialising a string value yields JSON text at least two characters
longer (the surrounding quotes). -/
theorem jsonDumps_str_length (s : String) :
    s.length + 2 ≤ (jsonDumps (PyValue.str s)).length := by
  have h := escChars_length_le s.data
  have hmk : (String.mk (escChars s.data)).length = (escChars s.data).length :=
    rfl
  have happ :
      (jsonDumps (PyValue.str s)).length =
        1 + (String.mk (escChars s.data)).length + 1 := by
    simp [jsonDumps, String.length_append,
      show ("\"" : String).length = 1 from rfl]
  have hs : s.length = s.data.length := rfl
  omega

/-- The JSON text of a value, seen as a Python string, is never the
value itself. -/
theorem str_jsonDumps_ne (v : PyValue) :
    PyValue.str (jsonDumps v) ≠ v := by
  cases v with
  | str s =>
      intro h
      have hs : jsonDumps (PyValue.str s) = s := by
        injection h
      have := jsonDumps_str_length s
      rw [hs] at this
      omega
  | none => intro h; cases h
  | bool b => intro h; cases h
  | int n => intro h; cases h

/-- C9: the default dialect built by `get_dialect` (and installed by
`create_engine` when no `dialect` argument is given) keeps
`json_serializer = json.dumps` but sets `json_deserializer` to the
identity, so serialising then deserialising any value returns the JSON
string `json.dumps(x)` unchanged — never the original value: the round
trip is not the identity. -/
theorem c9_default_json_deserializer_is_identity :
    (∀ v, _dialect.json_deserializer v = v) ∧
    (∀ v, _dialect.json_serializer v = PyValue.str (jsonDumps v)) ∧
    (∀ dsn p, (create_engine_nodialect dsn p).dialect = _dialect) ∧
    (∀ v, dialectRoundTrip _dialect v = PyValue.str (jsonDumps v) ∧
      dialectRoundTrip _dialect v ≠ v) := by
  refine ⟨fun v => rfl, fun v => rfl, fun dsn p => rfl, fun v => ⟨rfl, ?_⟩⟩
  exact str_jsonDumps_ne v

/-- C8: every read-only Engine property is exactly the pool's (or the
dialect's) property of the same name; the facade adds no state of its
own to these observations. -/
theorem c8_engine_properties_delegate (e : Engine) :
    e.size = e.pool.size ∧
    e.freesize = e.pool.freesize ∧
    e.minsize = e.pool.minsize ∧
    e.maxsize = e.pool.maxsize ∧
    e.timeout = e.pool.timeout ∧
    e.closed = e.pool.closed ∧
    e.name = e.dialect.name ∧
    e.driver = e.dialect.driver :=
  ⟨rfl, rfl, rfl, rfl, rfl, rfl, rfl, rfl⟩

/-- C1: releasing a connection whose `in_transaction` flag is set raises
`InvalidRequestError` (the spec's `InvalidStateError` kind) before any
interaction with the pool: the idle and in-use sets, `size` and
`freesize` are exactly as before the call, and no pool release, commit
or rollback is issued on the caller's behalf. -/
theorem c1_release_in_transaction_rejected (e : Engine)
    (conn : SAConnection) (h : conn.in_transaction = true) :
    e.release conn =
      (.error (.invalidRequestError releaseErrorMsg), e.pool, []) ∧
    (e.release conn).2.1.idle = e.pool.idle ∧
    (e.release conn).2.1.inUse = e.pool.inUse ∧
    (e.release conn).2.1.size = e.pool.size ∧
    (e.release conn).2.1.freesize = e.pool.freesize ∧
    (e.release conn).2.2 = [] := by
  simp [Engine.release, h]

/-- Witness for C1 at a concrete engine and a concrete mid-transaction
connection. -/
theorem c1_release_in_transaction_rejected_witness :
    c1engine.release c1conn =
      (.error (.invalidRequestError releaseErrorMsg), c1engine.pool, []) ∧
    (c1engine.release c1conn).2.1.idle = c1engine.pool.idle ∧
    (c1engine.release c1conn).2.1.inUse = c1engine.pool.inUse ∧
    (c1engine.release c1conn).2.1.size = c1engine.pool.size ∧
    (c1engine.release c1conn).2.1.freesize = c1engine.pool.freesize ∧
    (c1engine.release c1conn).2.2 = [] :=
  c1_release_in_transaction_rejected c1engine c1conn rfl

/-- C6: entering the Engine as a plain synchronous scoped construct
always raises the descriptive `RuntimeError`, and entering a scoped
acquisition wrapper that has not gone through the asynchronous
acquisition step likewise fails loudly; neither path ever yields a
resource. -/
theorem c6_sync_enter_always_fails (e : Engine) (w : AcquireCtx)
    (h : w.resolved = Option.none) :
    e.enterSync = .error (.runtimeError enterErrorMsg) ∧
    (∀ c, e.enterSync ≠ .ok c) ∧
    w.enterSyncW =
      .error (.runtimeError
        "asynchronous acquisition must run before entering") ∧
    (∀ c, w.enterSyncW ≠ .ok c) := by
  have heq : w.enterSyncW =
      .error (.runtimeError
        "asynchronous acquisition must run before entering") := by
    simp [AcquireCtx.enterSyncW, h]
  refine ⟨rfl, ?_, heq, ?_⟩
  · intro c hc
    simp [Engine.enterSync] at hc
  · intro c hc
    rw [heq] at hc
    simp at hc

/-- Witness for C6 at a concrete engine and the freshly created
wrapper. -/
theorem c6_sync_enter_always_fails_witness :
    c6engine.enterSync = .error (.runtimeError enterErrorMsg) ∧
    (∀ c, c6engine.enterSync ≠ .ok c) ∧
    AcquireCtx.fresh.enterSyncW =
      .error (.runtimeError
        "asynchronous acquisition must run before entering") ∧
    (∀ c, AcquireCtx.fresh.enterSyncW ≠ .ok c) :=
  c6_sync_enter_always_fails c6engine AcquireCtx.fresh rfl

/-- C10: after `_ConnectionContextManager.__exit__` runs — whether the
release it attempts succeeds or raises — both slots are cleared to
`None`; a second exit on the cleared wrapper attempts no release at all
(it fails on the attribute lookup), so the same connection can never be
released twice through one wrapper. -/
theorem c10_exit_clears_both_slots (w : ConnCtx) :
    (w.exitStep).2.1.engine = Option.none ∧
    (w.exitStep).2.1.conn = Option.none ∧
    (ConnCtx.exitStep ⟨Option.none, Option.none⟩).2.2.1 = 0 ∧
    (ConnCtx.exitStep ⟨Option.none, Option.none⟩).2.2.2 = [] ∧
    (ConnCtx.exitStep ⟨Option.none, Option.none⟩).1 =
      .error (.attributeError "NoneType object has no attribute release") := by
  obtain ⟨oe, oc⟩ := w
  cases oe <;> cases oc <;>
    exact ⟨rfl, rfl, rfl, rfl, rfl⟩

/-- C2 (amended): in a scoped block over `_ConnectionContextManager`,
release is attempted exactly once on every exit path (normal return or
raised body error); a failing release is always surfaced, never
swallowed, and when the body also raised, both are reported — but the
release failure is the error that propagates, with the body's error
attached as its context, so the release failure (not the body's error)
takes priority. -/
theorem c2_scoped_exit_release_exactly_once (e : Engine)
    (c : SAConnection) (body : Except SAError Unit) :
    (runWithBlock ⟨some e, some c⟩ body).2.2 = 1 ∧
    ((e.release c).1 = .ok () → body = .ok () →
      (runWithBlock ⟨some e, some c⟩ body).1 = .completed) ∧
    (∀ e1, (e.release c).1 = .ok () → body = .error e1 →
      (runWithBlock ⟨some e, some c⟩ body).1 = .raisedBody e1) ∧
    (∀ e2, (e.release c).1 = .error e2 → body = .ok () →
      (runWithBlock ⟨some e, some c⟩ body).1 =
        .raisedExit e2 Option.none) ∧
    (∀ e1 e2, (e.release c).1 = .error e2 → body = .error e1 →
      (runWithBlock ⟨some e, some c⟩ body).1 =
        .raisedExit e2 (some e1)) ∧
    (∀ e2, (e.release c).1 = .error e2 →
      (runWithBlock ⟨some e, some c⟩ body).1 ≠ .completed ∧
      ∀ e1, (runWithBlock ⟨some e, some c⟩ body).1 ≠ .raisedBody e1) := by
  refine ⟨rfl, ?_, ?_, ?_, ?_, ?_⟩
  · intro hr hb
    subst hb
    simp [runWithBlock, ConnCtx.exitStep, withOutcomeOf, hr]
  · intro e1 hr hb
    subst hb
    simp [runWithBlock, ConnCtx.exitStep, withOutcomeOf, hr]
  · intro e2 hr hb
    subst hb
    simp [runWithBlock, ConnCtx.exitStep, withOutcomeOf, hr]
  · intro e1 e2 hr hb
    subst hb
    simp [runWithBlock, ConnCtx.exitStep, withOutcomeOf, hr]
  · intro e2 hr
    cases body with
    | ok u =>
        exact ⟨by simp [runWithBlock, ConnCtx.exitStep, withOutcomeOf, hr],
          fun e1 => by
            simp [runWithBlock, ConnCtx.exitStep, withOutcomeOf, hr]⟩
    | error e1 =>
        exact ⟨by simp [runWithBlock, ConnCtx.exitStep, withOutcomeOf, hr],
          fun e1' => by
            simp [runWithBlock, ConnCtx.exitStep, withOutcomeOf, hr]⟩

/-- Witness for C2 at a concrete wrapper: the connection is
mid-transaction so release raises, and the body raised `ClosedError`;
release was attempted exactly once and the propagated error is the
release failure carrying the body error as context. -/
theorem c2_scoped_exit_release_exactly_once_witness :
    (runWithBlock ⟨some c2engine, some c2conn⟩
        (.error .closedError)).2.2 = 1 ∧
    (runWithBlock ⟨some c2engine, some c2conn⟩
        (.error .closedError)).1 =
      .raisedExit (.invalidRequestError releaseErrorMsg)
        (some .closedError) :=
  ⟨(c2_scoped_exit_release_exactly_once c2engine c2conn
      (.error .closedError)).1,
   (c2_scoped_exit_release_exactly_once c2engine c2conn
      (.error .closedError)).2.2.2.2.1
      SAError.closedError (SAError.invalidRequestError releaseErrorMsg)
      rfl rfl⟩

/-- C2 counterexample: with a body error (`ClosedError`) and a failing
release (`InvalidRequestError`, connection mid-transaction), what
propagates out of the block is the release failure, not the body's
error: the body's error does not take priority. -/
theorem c2_counterexample_release_error_propagates :
    (runWithBlock ⟨some c2engine, some c2conn⟩
        (.error .closedError)).1 =
      .raisedExit (.invalidRequestError releaseErrorMsg)
        (some .closedError) ∧
    (runWithBlock ⟨some c2engine, some c2conn⟩
        (.error .closedError)).1 ≠
      .raisedBody .closedError := by
  exact ⟨rfl, by decide⟩

/-- The FIFO invariant of one Bridge schedule: the completed, executing
and queued operations, in that order, are exactly the submitted ones in
submission order, and at most one operation executes at a time. -/
def BridgeInv (s : BridgeExec) : Prop :=
  s.completed ++ (s.running ++ s.queue) = s.submitted ∧
  s.running.length ≤ 1

/-- Every schedule event preserves the FIFO invariant. -/
theorem bridge_step_inv (s : BridgeExec) (op : BridgeOp)
    (h : BridgeInv s) : BridgeInv (s.step op) := by
  obtain ⟨sub, q, r, comp⟩ := s
  obtain ⟨horder, hrun⟩ := h
  simp only [BridgeInv] at *
  cases op with
  | submitOp i =>
      by_cases hi : i ∈ sub
      · simpa [BridgeExec.step, hi] using ⟨horder, hrun⟩
      · refine ⟨?_, ?_⟩
        · simp only [BridgeExec.step, hi, if_neg, not_false_iff]
          rw [← horder]
          simp
        · simpa [BridgeExec.step, hi] using hrun
  | startOp =>
      cases r with
      | nil =>
          cases q with
          | nil => exact ⟨horder, hrun⟩
          | cons i rest =>
              refine ⟨?_, ?_⟩
              · rw [← horder]
                simp [BridgeExec.step]
              · simp [BridgeExec.step]
      | cons a as => exact ⟨horder, hrun⟩
  | finishOp =>
      cases r with
      | nil => exact ⟨horder, hrun⟩
      | cons a as =>
          cases as with
          | nil =>
              refine ⟨?_, ?_⟩
              · rw [← horder]
                simp [BridgeExec.step]
              · simp [BridgeExec.step]
          | cons a' as' => exact ⟨horder, hrun⟩

/-- Any schedule starting from an invariant state stays invariant. -/
theorem bridge_fold_inv (ops : List BridgeOp) (s : BridgeExec)
    (h : BridgeInv s) : BridgeInv (ops.foldl BridgeExec.step s) := by
  induction ops generalizing s with
  | nil => exact h
  | cons op rest ih => exact ih _ (bridge_step_inv s op h)

/-- C3: for every schedule of operations on one Bridge — submissions
from any number of concurrent callers interleaved with the worker's
events — the fulfilled result slots form, in fulfillment order, an
initial segment of the submissions in submission order (completion
order equals submission order), and at most one operation executes
against the underlying handle at any instant. -/
theorem c3_bridge_fifo_completion (ops : List BridgeOp) :
    (∃ pending, (BridgeExec.run ops).completed ++ pending =
      (BridgeExec.run ops).submitted) ∧
    (BridgeExec.run ops).running.length ≤ 1 := by
  have h : BridgeInv (BridgeExec.run ops) :=
    bridge_fold_inv ops BridgeExec.init ⟨rfl, by simp [BridgeExec.init]⟩
  exact ⟨⟨(BridgeExec.run ops).running ++ (BridgeExec.run ops).queue,
    h.1⟩, h.2⟩

/-- The wrapper start-count invariant: the underlying acquisition has
been started exactly as often as the single coroutine was consumed. -/
def WrapInv (w : AcquireCtx) : Prop :=
  w.started = (if w.spent then 1 else 0)

/-- Resolving the wrapper preserves the start-count invariant. -/
theorem wrap_resolve_inv (w : AcquireCtx) (e : Engine)
    (h : WrapInv w) : WrapInv ((w.resolve e).2.1) := by
  obtain ⟨ores, sp, st⟩ := w
  cases ores with
  | some c => exact h
  | none =>
      cases sp with
      | true => exact h
      | false =>
          have hst : st = 0 := by simpa [WrapInv] using h
          cases hacq : Engine.engineAcquire e with
          | ok pr => simp [WrapInv, AcquireCtx.resolve, hacq, hst]
          | error err => simp [WrapInv, AcquireCtx.resolve, hacq, hst]

/-- Every consumption of the wrapper preserves the start-count
invariant. -/
theorem wrap_step_inv (we : AcquireCtx × Engine) (op : WrapOp)
    (h : WrapInv we.1) : WrapInv ((AcquireCtx.stepW we op).1) := by
  cases op with
  | awaitOp => exact wrap_resolve_inv we.1 we.2 h
  | enterOp => exact wrap_resolve_inv we.1 we.2 h

/-- Any sequence of consumptions preserves the start-count
invariant. -/
theorem wrap_fold_inv (ops : List WrapOp) (we : AcquireCtx × Engine)
    (h : WrapInv we.1) :
    WrapInv ((ops.foldl AcquireCtx.stepW we).1) := by
  induction ops generalizing we with
  | nil => exact h
  | cons op rest ih => exact ih _ (wrap_step_inv we op h)

/-- C7: the scoped-enter operation of the acquisition wrapper is the
very same delegation as resolve, and however many times the wrapper
returned by `Engine.acquire` is awaited or entered, the underlying
acquisition is started at most once — no connection is acquired twice
for one wrapper. -/
theorem c7_acquisition_started_at_most_once (e : Engine)
    (ops : List WrapOp) :
    (∀ w eng, AcquireCtx.scopedEnter w eng = AcquireCtx.resolve w eng) ∧
    (ops.foldl AcquireCtx.stepW (e.acquire, e)).1.started ≤ 1 := by
  refine ⟨fun w eng => rfl, ?_⟩
  have h : WrapInv ((ops.foldl AcquireCtx.stepW (e.acquire, e)).1) :=
    wrap_fold_inv ops (e.acquire, e) (by simp [WrapInv, Engine.acquire,
      AcquireCtx.fresh])
  rw [WrapInv] at h
  cases hsp : (ops.foldl AcquireCtx.stepW (e.acquire, e)).1.spent <;>
    rw [hsp] at h <;> simp at h <;> omega

/-- The pool bound invariant, relative to the `minsize` and `maxsize`
the pool was constructed with: the configuration is intact, the pool is
open, and `0 < size ≤ maxsize`. -/
def PoolInvAt (m M : Nat) (p : PoolState) : Prop :=
  p.minsize = m ∧ p.maxsize = M ∧ p.closed = false ∧
  0 < p.size ∧ p.size ≤ M

/-- Every acquire, release or clock step preserves the pool bound
invariant, provided `0 < minsize ≤ maxsize`. -/
theorem pool_step_inv (m M : Nat) (p : PoolState) (op : PoolOp)
    (hm : 0 < m) (hmM : m ≤ M) (h : PoolInvAt m M p) :
    PoolInvAt m M (p.step op) := by
  obtain ⟨hmin, hmax, hcl, hpos, hbound⟩ := h
  cases op with
  | tick => exact ⟨hmin, hmax, hcl, hpos, hbound⟩
  | acquireOp =>
      cases hidle : p.idle with
      | cons b rest =>
          have hstep : p.step PoolOp.acquireOp =
              { p with idle := rest, inUse := b :: p.inUse } := by
            simp [PoolState.step, PoolState.acquire, hcl, hidle]
          rw [hstep]
          have hsz : ({ p with idle := rest, inUse := b :: p.inUse } :
              PoolState).size = p.size := by
            simp only [PoolState.size, List.length_cons, hidle]
            omega
          exact ⟨hmin, hmax, hcl, by rw [hsz]; exact hpos,
            by rw [hsz]; exact hbound⟩
      | nil =>
          by_cases hsz : p.size < p.maxsize
          · have hstep : p.step PoolOp.acquireOp =
                { p with inUse := freshBridge p.nextId p.now :: p.inUse,
                         nextId := p.nextId + 1 } := by
              simp [PoolState.step, PoolState.acquire, hcl, hidle, hsz]
            rw [hstep]
            have hsz' : ({ p with
                inUse := freshBridge p.nextId p.now :: p.inUse,
                nextId := p.nextId + 1 } : PoolState).size = p.size + 1 := by
              simp only [PoolState.size, List.length_cons]
              omega
            refine ⟨hmin, hmax, hcl, ?_, ?_⟩
            · rw [hsz']; omega
            · rw [hsz']; rw [hmax] at hsz; omega
          · have hstep : p.step PoolOp.acquireOp = p := by
              simp [PoolState.step, PoolState.acquire, hcl, hidle, hsz]
            rw [hstep]
            exact ⟨hmin, hmax, hcl, hpos, hbound⟩
  | releaseOp b =>
      have hsize : p.size = p.idle.length + p.inUse.length := rfl
      by_cases hb : b ∈ p.inUse
      · have hulen : 0 < p.inUse.length := List.length_pos_of_mem hb
        have helen : (p.inUse.erase b).length = p.inUse.length - 1 :=
          List.length_erase_of_mem hb
        by_cases htr : b.in_transaction
        · have hstep : p.step (PoolOp.releaseOp b) = p := by
            simp [PoolState.step, PoolState.release, hb, htr, hcl]
          rw [hstep]
          exact ⟨hmin, hmax, hcl, hpos, hbound⟩
        · by_cases hstale : (b.closed || b.stale p.recycle p.now) = true
          · by_cases hq : p.idle.length + (p.inUse.length - 1) <
                p.minsize
            · have hstep : p.step (PoolOp.releaseOp b) =
                  { p with inUse := p.inUse.erase b,
                           idle := freshBridge p.nextId p.now :: p.idle,
                           nextId := p.nextId + 1 } := by
                simp [PoolState.step, PoolState.release, hb, htr, hcl,
                  hstale, PoolState.size, hq]
              rw [hstep]
              refine ⟨hmin, hmax, hcl, ?_, ?_⟩ <;>
                simp only [PoolState.size, List.length_cons] <;>
                omega
            · have hstep : p.step (PoolOp.releaseOp b) =
                  { p with inUse := p.inUse.erase b } := by
                simp [PoolState.step, PoolState.release, hb, htr, hcl,
                  hstale, PoolState.size, hq]
              rw [hstep]
              refine ⟨hmin, hmax, hcl, ?_, ?_⟩ <;>
                simp only [PoolState.size] <;>
                omega
          · have hstep : p.step (PoolOp.releaseOp b) =
                { p with inUse := p.inUse.erase b,
                         idle := b :: p.idle } := by
              simp [PoolState.step, PoolState.release, hb, htr, hcl,
                hstale]
            rw [hstep]
            refine ⟨hmin, hmax, hcl, ?_, ?_⟩ <;>
              simp only [PoolState.size, List.length_cons] <;>
              omega
      · have hstep : p.step (PoolOp.releaseOp b) = p := by
          simp [PoolState.step, PoolState.release, hb]
        rw [hstep]
        exact ⟨hmin, hmax, hcl, hpos, hbound⟩

/-- Any sequence of pool steps preserves the pool bound invariant. -/
theorem pool_fold_inv (m M : Nat) (ops : List PoolOp) (p : PoolState)
    (hm : 0 < m) (hmM : m ≤ M) (h : PoolInvAt m M p) :
    PoolInvAt m M (p.run ops) := by
  induction ops generalizing p with
  | nil => exact h
  | cons op rest ih => exact ih _ (pool_step_inv m M p op hm hmM h)

/-- The pre-opened Bridge list has exactly `minsize` entries. -/
theorem initBridges_length (n s : Nat) : (initBridges n s).length = n := by
  induction n generalizing s with
  | zero => rfl
  | succ k ih => simp [initBridges, ih]

/-- C4 (amended): `minsize ≤ maxsize` is enforced at construction
(`create_pool` refuses `maxsize < minsize`), and every pool constructed
with `0 < minsize ≤ maxsize` satisfies `0 < size ≤ maxsize` after any
sequence of acquire and release steps (the pool never being closed or
terminated along the way); in particular size never exceeds
`maxsize`. -/
theorem c4_pool_size_bounds :
    (∀ m M t r, M < m → create_pool m M t r = Option.none) ∧
    (∀ m M t r p0 ops, 0 < m → m ≤ M →
      create_pool m M t r = some p0 →
      0 < (p0.run ops).size ∧ (p0.run ops).size ≤ M) := by
  constructor
  · intro m M t r hMm
    simp [create_pool, Nat.not_le.mpr hMm]
  · intro m M t r p0 ops hm hmM hmk
    have hp0 : p0 = ⟨m, M, t, r, 0, initBridges m 0, [], false, m⟩ := by
      rw [create_pool, if_pos hmM] at hmk
      exact (Option.some_inj.mp hmk).symm
    have hinv : PoolInvAt m M p0 := by
      rw [hp0]
      refine ⟨rfl, rfl, rfl, ?_, ?_⟩ <;>
        simp only [PoolState.size, initBridges_length,
          List.length_nil] <;> omega
    have h := pool_fold_inv m M ops p0 hm hmM hinv
    exact ⟨h.2.2.2.1, h.2.2.2.2⟩

/-- Witness for C4: construction with `maxsize < minsize` is refused,
and the `minsize = 1`, `maxsize = 2` pool keeps `0 < size ≤ 2` after an
acquire step. -/
theorem c4_pool_size_bounds_witness :
    create_pool 2 1 0 (-1) = Option.none ∧
    (0 < (c4wpool.run [PoolOp.acquireOp]).size ∧
      (c4wpool.run [PoolOp.acquireOp]).size ≤ 2) :=
  ⟨c4_pool_size_bounds.1 2 1 0 (-1) (by omega),
   c4_pool_size_bounds.2 1 2 0 (-1) c4wpool [PoolOp.acquireOp]
     (by omega) (by omega) rfl⟩

/-- C4 counterexample: `create_pool` accepts `minsize = 0 ≤ maxsize = 1`
and the constructed pool starts — and stays, over the empty step
sequence — at `size = 0`, so the claimed `0 < size` fails for a pool
constructed merely with `minsize ≤ maxsize`. -/
theorem c4_counterexample_minsize_zero :
    create_pool 0 1 0 (-1) = some c4pool ∧
    c4pool.run [] = c4pool ∧
    c4pool.size = 0 ∧ ¬ 0 < c4pool.size :=
  ⟨rfl, rfl, rfl, by decide⟩

/-- C5 (amended): on an open pool whose idle set is nonempty, acquiring
(which hands out the head of the idle set) and immediately releasing
that same Bridge — still open, not mid-transaction and within the
recycle age — returns it to the idle set and leaves both `Pool.size`
and `Pool.freesize` exactly as they were before the pair. -/
theorem c5_acquire_release_net_zero (p : PoolState) (b : Bridge)
    (rest : List Bridge) (hcl : p.closed = false)
    (hidle : p.idle = b :: rest) (htr : b.in_transaction = false)
    (hbc : b.closed = false) (hst : b.stale p.recycle p.now = false) :
    ∃ q, acquireRelease p = .ok q ∧
      q.size = p.size ∧ q.freesize = p.freesize := by
  refine ⟨{ p with idle := b :: rest, inUse := p.inUse }, ?_, ?_, ?_⟩
  · simp [acquireRelease, PoolState.acquire, PoolState.release, hcl,
      hidle, htr, hbc, hst, List.erase_cons_head]
  · simp only [PoolState.size, hidle]
  · simp only [PoolState.freesize, hidle]

/-- Witness for C5 at a concrete idle pool: the pair returns the single
Bridge and `size`/`freesize` are unchanged. -/
theorem c5_acquire_release_net_zero_witness :
    ∃ q, acquireRelease c5wpool = .ok q ∧
      q.size = c5wpool.size ∧ q.freesize = c5wpool.freesize :=
  c5_acquire_release_net_zero c5wpool (freshBridge 0 0) [] rfl rfl rfl
    rfl rfl

/-- C5 counterexample: after `create_pool 1 2` and one acquire the pool
has `size = 1` with an empty idle set; the next acquire must create a
second Bridge and releasing it healthy returns it to the idle set, so
the acquire/release pair changes `size` from 1 to 2 and `freesize` from
0 to 1 — the net-zero law fails for a pair whose acquire was not served
from the idle set. -/
theorem c5_counterexample_pair_grows_pool :
    create_pool 1 2 0 (-1) = some c5pool ∧
    (c5pool.run [PoolOp.acquireOp]).size = 1 ∧
    (c5pool.run [PoolOp.acquireOp]).freesize = 0 ∧
    (acquireRelease (c5pool.run [PoolOp.acquireOp])).map PoolState.size =
      .ok 2 ∧
    (acquireRelease (c5pool.run [PoolOp.acquireOp])).map
      PoolState.freesize = .ok 1 :=
  ⟨rfl, rfl, rfl, rfl, rfl⟩

end AiosqliteSA
